import Mathlib

/-!
A shallow embedding of the GraphJs force-directed layout engine
(`src/graph.js`) and proofs about it.

Modelling conventions:
* JavaScript numbers are modelled as real numbers (`ℝ`); floating-point
  rounding is not modelled.  `Math.hypot(x, y)` is `Real.sqrt (x^2 + y^2)`,
  `Math.log` is `Real.log`.
* JavaScript object identity is modelled with an explicit heap: every
  `Node` object is a `NodeObj` stored in `Graph.heap`, and references to
  nodes are indices (`Nat`) into that list.  Every `Edge` object carries a
  fresh allocation id `eid` drawn from `Graph.nextEdgeId`, so the source's
  reference-identity comparison `e === new_edge` becomes a comparison of
  allocation ids.
* The ES `Map` held in `Graph.nodes` is modelled as an association list
  `registry`; `Map.set` on a present key replaces the value in place
  (keeping insertion order) and appends otherwise, `Map.prototype.values`
  iterates in insertion order.
* `throw` is modelled with `Except JsError`: `addNode` throws
  `invalidArgument`, `getNode` throws `notFound`, and reading a property of
  `undefined` (which happens in `simulate` when the uninitialised local
  `force` is normalised in the `dist == 0` branch) throws `typeError`.
* `Vector.rand()` is modelled by passing an explicit stream
  `rnd : Nat → Vector` to `init`; the i-th loop iteration consumes `rnd i`.
-/

namespace GraphJs

noncomputable section

/-- 2D vector value type, from `class Vector` in `src/graph.js`. -/
@[ext] structure Vector where
  x : ℝ
  y : ℝ

namespace Vector

/-- `Vector.add` -/
def add (a b : Vector) : Vector := ⟨a.x + b.x, a.y + b.y⟩

/-- `Vector.sub` -/
def sub (a b : Vector) : Vector := ⟨a.x - b.x, a.y - b.y⟩

/-- `Vector.mul` (elementwise) -/
def mul (a b : Vector) : Vector := ⟨a.x * b.x, a.y * b.y⟩

/-- `Vector.addS` (add scalar to both components) -/
def addS (v : Vector) (s : ℝ) : Vector := ⟨v.x + s, v.y + s⟩

/-- `Vector.mulS` (scale both components) -/
def mulS (v : Vector) (s : ℝ) : Vector := ⟨v.x * s, v.y * s⟩

/-- `Vector.divS` (divide both components by a scalar) -/
def divS (v : Vector) (s : ℝ) : Vector := ⟨v.x / s, v.y / s⟩

/-- `Vector.mag`, i.e. `Math.hypot(v.x, v.y)`. -/
def mag (v : Vector) : ℝ := Real.sqrt (v.x ^ 2 + v.y ^ 2)

/-- `Vector.norm` -/
def norm (v : Vector) : Vector := divS v (mag v)

end Vector

/-- A `Node` object: `label`, adjacency list `peers` (heap references),
and kinematic state.  Fresh nodes start at the origin with zero velocity
and acceleration (`class Node` constructor). -/
structure NodeObj where
  label : String
  peers : List Nat
  pos : Vector
  vel : Vector
  acel : Vector

instance : Inhabited NodeObj := ⟨⟨"", [], ⟨0, 0⟩, ⟨0, 0⟩, ⟨0, 0⟩⟩⟩

/-- An `Edge` object: allocation id (object identity), the `start` and
`end` node references (the source's `end` field is called `stop` here, as
`end` is reserved in Lean), and `is_directed`. -/
structure EdgeObj where
  eid : Nat
  start : Nat
  stop : Nat
  is_directed : Bool

/-- The errors thrown by the source: `addNode`'s argument check,
`getNode`'s lookup failure, and the `TypeError` raised by reading a
property of `undefined`. -/
inductive JsError where
  | invalidArgument
  | notFound
  | typeError
deriving DecidableEq

/-- A dynamically-typed JavaScript value passed to `addNode`: either a
`Node` reference or anything that is not a `Node` instance. -/
inductive JsValue where
  | nodeV (nid : Nat)
  | nonNode

/-- The `Graph` class: heap of allocated nodes, the label→node `Map`,
the edge array, the edge allocation counter, and the force parameters. -/
structure Graph where
  heap : List NodeObj
  registry : List (String × Nat)
  edges : List EdgeObj
  nextEdgeId : Nat
  spring_constant : ℝ
  spring_length : ℝ
  repulsive_constant : ℝ
  max_repulsive_force : ℝ

/-- `new Graph()`: empty map and edge list, default force parameters
(`1e2`, `30`, `1e5`, `1e4`). -/
def Graph.new : Graph :=
  { heap := [], registry := [], edges := [], nextEdgeId := 0,
    spring_constant := 1e2, spring_length := 30,
    repulsive_constant := 1e5, max_repulsive_force := 1e4 }

/-- ES `Map.set`: replace in place when the key is present (insertion
order kept), append otherwise. -/
def mapSet : List (String × Nat) → String → Nat → List (String × Nat)
  | [], k, v => [(k, v)]
  | (k', v') :: rest, k, v =>
    if k' = k then (k', v) :: rest else (k', v') :: mapSet rest k v

/-- ES `Map.get`: the value stored under the key, if any. -/
def mapGet : List (String × Nat) → String → Option Nat
  | [], _ => none
  | (k', v') :: rest, k => if k' = k then some v' else mapGet rest k

/-- `this.nodes.values()`: the stored node references in insertion
order. -/
def Graph.values (g : Graph) : List Nat := g.registry.map Prod.snd

/-- `new Node(label)` allocated on the graph's heap; returns the new
reference. -/
def Graph.newNode (g : Graph) (label : String) : Graph × Nat :=
  let nd : NodeObj := { label := label, peers := [], pos := ⟨0, 0⟩, vel := ⟨0, 0⟩, acel := ⟨0, 0⟩ }
  ({g with heap := g.heap ++ [nd]}, g.heap.length)

/-- The `label` field of the node object behind a reference. -/
def Graph.labelOf (g : Graph) (nid : Nat) : String :=
  (g.heap.getD nid default).label

/-- `Graph.addNode`: throws `invalidArgument` unless the argument is a
`Node` instance; otherwise `this.nodes.set(node.label, node)` and returns
the node. -/
def Graph.addNode (g : Graph) (v : JsValue) : Except JsError (Graph × Nat) :=
  match v with
  | .nonNode => .error .invalidArgument
  | .nodeV nid =>
    .ok ({g with registry := mapSet g.registry (g.labelOf nid) nid}, nid)

/-- `Graph.getNode`: throws `notFound` when the label is absent. -/
def Graph.getNode (g : Graph) (label : String) : Except JsError Nat :=
  match mapGet g.registry label with
  | none => .error .notFound
  | some nid => .ok nid

/-- `node.addPeer(other)`: push onto the node's `peers` array. -/
def Graph.addPeer (g : Graph) (i j : Nat) : Graph :=
  let nd := g.heap.getD i default
  {g with heap := g.heap.set i {nd with peers := nd.peers ++ [j]}}

/-- `Graph.connectNodes`: resolve both labels (propagating `notFound`),
allocate a fresh `Edge`, skip if `this.edges.find(e => e === new_edge)`
finds it (it compares object identity against the just-allocated edge, so
the lookup is over the fresh `eid`), else push the edge and update the
peer lists. -/
def Graph.connectNodes (g : Graph) (la lb : String) (is_directed : Bool) :
    Except JsError Graph :=
  match g.getNode la with
  | .error e => .error e
  | .ok na =>
    match g.getNode lb with
    | .error e => .error e
    | .ok nb =>
      let newEdge : EdgeObj :=
        ⟨g.nextEdgeId, na, nb, is_directed⟩
      let g0 : Graph := {g with nextEdgeId := g.nextEdgeId + 1}
      if (g0.edges.find? (fun e => e.eid == newEdge.eid)).isSome then
        .ok g0
      else
        let g1 : Graph := {g0 with edges := g0.edges ++ [newEdge]}
        let g2 : Graph := g1.addPeer na nb
        .ok (if is_directed then g2 else g2.addPeer nb na)

/-- One iteration of the `init` loop body: `n.pos = rand(); n.pos =
mulS(n.pos, .1); n.pos = addS(n.pos, (1-.1)/2); n.pos = mul(n.pos,
(width, height))`, with the random sample `r` made explicit. -/
def initNode (w h : ℝ) (r : Vector) (heap : List NodeObj) (n : Nat) :
    List NodeObj :=
  let pos1 := Vector.mulS r 0.1
  let pos2 := Vector.addS pos1 ((1 - 0.1) / 2)
  let pos3 := Vector.mul pos2 ⟨w, h⟩
  heap.set n {heap.getD n default with pos := pos3}

/-- The `init` loop over `nodes.values()`, threading the index of the
random stream. -/
def initFold (w h : ℝ) (rnd : Nat → Vector) :
    Nat → List NodeObj → List Nat → List NodeObj
  | _, heap, [] => heap
  | i, heap, n :: ns => initFold w h rnd (i + 1) (initNode w h (rnd i) heap n) ns

/-- `Graph.init(graphDrawer)` with the drawing surface's dimensions and
the random stream passed explicitly. -/
def Graph.init (g : Graph) (w h : ℝ) (rnd : Nat → Vector) : Graph :=
  {g with heap := initFold w h rnd 0 g.heap g.values}

/-- Simulation phase 1: `n.acel = new Vector(0, 0)` for every node. -/
def resetPhase (heap : List NodeObj) : List Nat → List NodeObj
  | [] => heap
  | n :: ns => resetPhase (heap.set n {heap.getD n default with acel := ⟨0, 0⟩}) ns

/-- Simulation phase 2, body for one edge: spring force when the
endpoint distance exceeds the spring length. -/
def applyEdge (k L : ℝ) (heap : List NodeObj) (e : EdgeObj) : List NodeObj :=
  let n := e.start
  let p := e.stop
  let dist_vec := Vector.sub (heap.getD n default).pos (heap.getD p default).pos
  let dist := Vector.mag dist_vec
  let dir := Vector.norm dist_vec
  if dist > L then
    let f := Vector.mulS dir (k * Real.log (dist - (L - 1)))
    let nd := heap.getD n default
    let heap1 := heap.set n {nd with acel := Vector.sub nd.acel f}
    let pd := heap1.getD p default
    heap1.set p {pd with acel := Vector.add pd.acel f}
  else heap

/-- Simulation phase 2: the loop over `this.edges`. -/
def edgePhase (k L : ℝ) (heap : List NodeObj) : List EdgeObj → List NodeObj
  | [] => heap
  | e :: es => edgePhase k L (applyEdge k L heap e) es

/-- Simulation phase 3, body for one ordered pair `(n, p)` with
`n ≠ p`: the repulsive update of `n.acel`.  When `dist != 0` the new
force is `sub(n.acel, mulS(dir, repulsive_constant / dist²))`, clamped to
magnitude `maxF` when it exceeds `maxF`.  When `dist == 0` the source
evaluates `Vector.norm(force)` with `force` still `undefined`, which
throws a `TypeError` (reading `.x` of `undefined` inside `mag`). -/
def repulseStep (kr maxF : ℝ) (heap : List NodeObj) (n p : Nat) :
    Except JsError (List NodeObj) :=
  let dist_vec := Vector.sub (heap.getD p default).pos (heap.getD n default).pos
  let dist := Vector.mag dist_vec
  let dir := Vector.norm dist_vec
  if dist ≠ 0 then
    let nd := heap.getD n default
    let force := Vector.sub nd.acel (Vector.mulS dir (kr / (dist * dist)))
    let force2 := if Vector.mag force > maxF then Vector.mulS (Vector.norm force) maxF else force
    .ok (heap.set n {nd with acel := force2})
  else
    .error .typeError

/-- Simulation phase 3, inner loop: for a fixed subject `n`, iterate
over all node references `p`, skipping `n === p`. -/
def repulseInner (kr maxF : ℝ) (n : Nat) (heap : List NodeObj) :
    List Nat → Except JsError (List NodeObj)
  | [] => .ok heap
  | p :: ps =>
    if n = p then repulseInner kr maxF n heap ps
    else
      match repulseStep kr maxF heap n p with
      | .error e => .error e
      | .ok heap2 => repulseInner kr maxF n heap2 ps

/-- Simulation phase 4 (still inside the per-subject loop): the
centering force toward `(width/2, height/2)`, skipped when the node sits
exactly at the center. -/
def applyCenter (w h : ℝ) (heap : List NodeObj) (n : Nat) : List NodeObj :=
  let dist_vec := Vector.sub ⟨w / 2, h / 2⟩ (heap.getD n default).pos
  let dist := Vector.mag dist_vec
  let dir := Vector.norm dist_vec
  if dist ≠ 0 then
    let nd := heap.getD n default
    heap.set n {nd with acel := Vector.add nd.acel (Vector.mulS dir (1e-3 * (dist * dist)))}
  else heap

/-- Simulation phases 3–4: the outer loop over subjects; for each
subject run the inner pairwise loop (over the full `values()` list
`vals`), then the centering force. -/
def repulsePhase (kr maxF w h : ℝ) (vals : List Nat) (heap : List NodeObj) :
    List Nat → Except JsError (List NodeObj)
  | [] => .ok heap
  | n :: ns =>
    match repulseInner kr maxF n heap vals with
    | .error e => .error e
    | .ok heap2 => repulsePhase kr maxF w h vals (applyCenter w h heap2 n) ns

/-- Simulation phase 5, body for one node: semi-implicit Euler with
damping, in source order — `pos += vel*dt`, then `vel += acel*dt`, then
`vel *= 0.95`. -/
def integrateNode (dt : ℝ) (heap : List NodeObj) (n : Nat) : List NodeObj :=
  let nd := heap.getD n default
  let nd1 := {nd with pos := Vector.add nd.pos (Vector.mulS nd.vel dt)}
  let nd2 := {nd1 with vel := Vector.add nd1.vel (Vector.mulS nd1.acel dt)}
  let nd3 := {nd2 with vel := Vector.mulS nd2.vel 0.95}
  heap.set n nd3

/-- Simulation phase 5: the integration loop over every node. -/
def integratePhase (dt : ℝ) (heap : List NodeObj) : List Nat → List NodeObj
  | [] => heap
  | n :: ns => integratePhase dt (integrateNode dt heap n) ns

/-- `Graph.simulate(graphDrawer, dt)` with the surface dimensions passed
explicitly. -/
def Graph.simulate (g : Graph) (w h dt : ℝ) : Except JsError Graph :=
  let vals := g.values
  let heap0 := resetPhase g.heap vals
  let heap1 := edgePhase g.spring_constant g.spring_length heap0 g.edges
  match repulsePhase g.repulsive_constant g.max_repulsive_force w h vals heap1 vals with
  | .error e => .error e
  | .ok heap2 => .ok {g with heap := integratePhase dt heap2 vals}

/-- The pairwise repulsive force vector subtracted from the subject's
acceleration inside `repulseStep`: `mulS(dir, repulsive_constant / dist²)`
for the pair `(n, p)`, read off the heap's positions. -/
def repulseTerm (kr : ℝ) (heap : List NodeObj) (n p : Nat) : Vector :=
  let dist_vec := Vector.sub (heap.getD p default).pos (heap.getD n default).pos
  Vector.mulS (Vector.norm dist_vec)
    (kr / (Vector.mag dist_vec * Vector.mag dist_vec))

/-- The force-magnitude clamp applied inside `repulseStep`: rescale to
magnitude `maxF` whenever the magnitude exceeds `maxF`. -/
def clampF (maxF : ℝ) (v : Vector) : Vector :=
  if Vector.mag v > maxF then Vector.mulS (Vector.norm v) maxF else v

/-- Sum of a list of vectors. -/
def vsum (l : List Vector) : Vector := l.foldr Vector.add ⟨0, 0⟩

/-- Overwrite the acceleration of the node behind reference `n` (the
shape of every heap update performed by the repulsion loop). -/
def setAcel (heap : List NodeObj) (n : Nat) (a : Vector) : List NodeObj :=
  heap.set n {heap.getD n default with acel := a}

/-- Fixture constructor: a freshly constructed node moved to position
`(px, py)`. -/
def mkNode (label : String) (px py : ℝ) : NodeObj :=
  { label := label, peers := [], pos := ⟨px, py⟩, vel := ⟨0, 0⟩, acel := ⟨0, 0⟩ }

/-- Fixture: a graph holding two registered nodes `A` and `B`, both at
the origin (the position every `new Node` starts at), no edges. -/
def gAB : Graph :=
  {Graph.new with
    heap := [mkNode "A" 0 0, mkNode "B" 0 0]
    registry := [("A", 0), ("B", 1)]}

/-- Fixture: a graph holding three registered nodes on the x-axis at
`0`, `100` and `300`, no edges. -/
def gLine : Graph :=
  {Graph.new with
    heap := [mkNode "A" 0 0, mkNode "B" 100 0, mkNode "C" 300 0]
    registry := [("A", 0), ("B", 1), ("C", 2)]}

end

/-! ## Helper lemmas -/

theorem getD_set_self {α : Type} (l : List α) (n : Nat) (a d : α)
    (h : n < l.length) : (l.set n a).getD n d = a := by
  simp [List.getD_eq_getElem?_getD, List.getElem?_set_self', List.getElem?_eq_getElem h]

theorem getD_set_ne {α : Type} (l : List α) (m n : Nat) (a d : α)
    (h : m ≠ n) : (l.set m a).getD n d = l.getD n d := by
  simp [List.getD_eq_getElem?_getD, List.getElem?_set_ne h]

theorem addPeer_heap_length (g : Graph) (i j : Nat) :
    (g.addPeer i j).heap.length = g.heap.length := by
  simp [Graph.addPeer]

theorem addPeer_peers_self (g : Graph) (i j : Nat) (h : i < g.heap.length) :
    ((g.addPeer i j).heap.getD i default).peers =
      (g.heap.getD i default).peers ++ [j] := by
  simp only [Graph.addPeer]
  rw [getD_set_self _ _ _ _ h]

theorem addPeer_getD_ne (g : Graph) (i j m : Nat) (h : i ≠ m) :
    (g.addPeer i j).heap.getD m default = g.heap.getD m default := by
  simp only [Graph.addPeer]
  rw [getD_set_ne _ _ _ _ _ h]

theorem mapGet_mapSet_self (r : List (String × Nat)) (k : String) (v : Nat) :
    mapGet (mapSet r k v) k = some v := by
  induction r with
  | nil => simp [mapSet, mapGet]
  | cons hd tl ih =>
    cases hd with
    | mk k' v' =>
      by_cases h : k' = k
      · simp [mapSet, mapGet, h]
      · simp [mapSet, mapGet, h, ih]

theorem mag_nonneg (v : Vector) : 0 ≤ Vector.mag v := Real.sqrt_nonneg _

theorem mag_eq_zero_iff (v : Vector) : Vector.mag v = 0 ↔ v = ⟨0, 0⟩ := by
  constructor
  · intro h
    rw [Vector.mag, Real.sqrt_eq_zero'] at h
    have hx : v.x = 0 := by nlinarith [sq_nonneg v.x, sq_nonneg v.y]
    have hy : v.y = 0 := by nlinarith [sq_nonneg v.x, sq_nonneg v.y]
    cases v
    simp_all
  · rintro rfl
    simp [Vector.mag]

theorem mag_xAxis (x : ℝ) : Vector.mag ⟨x, 0⟩ = |x| := by
  rw [Vector.mag]
  simp [Real.sqrt_sq_eq_abs]

theorem mag_mulS (v : Vector) (s : ℝ) :
    Vector.mag (Vector.mulS v s) = |s| * Vector.mag v := by
  rw [Vector.mag, Vector.mag, Vector.mulS]
  have h : (v.x * s) ^ 2 + (v.y * s) ^ 2 = s ^ 2 * (v.x ^ 2 + v.y ^ 2) := by ring
  simp only
  rw [h, Real.sqrt_mul (sq_nonneg s), Real.sqrt_sq_eq_abs]

theorem divS_eq_mulS (v : Vector) (s : ℝ) : Vector.divS v s = Vector.mulS v s⁻¹ := by
  simp [Vector.divS, Vector.mulS, div_eq_mul_inv]

theorem mag_norm (v : Vector) (h : Vector.mag v ≠ 0) :
    Vector.mag (Vector.norm v) = 1 := by
  rw [Vector.norm, divS_eq_mulS, mag_mulS, abs_inv,
    abs_of_nonneg (mag_nonneg v), inv_mul_cancel₀ h]

theorem clampF_of_le (maxF : ℝ) (v : Vector) (h : Vector.mag v ≤ maxF) :
    clampF maxF v = v := by
  rw [clampF, if_neg (not_lt.mpr h)]

theorem mag_clampF_le (maxF : ℝ) (v : Vector) (h0 : 0 ≤ maxF) :
    Vector.mag (clampF maxF v) ≤ maxF := by
  rw [clampF]
  by_cases h : Vector.mag v > maxF
  · have hne : Vector.mag v ≠ 0 := (lt_of_le_of_lt h0 h).ne'
    rw [if_pos h, mag_mulS, mag_norm _ hne, mul_one, abs_of_nonneg h0]
  · rw [if_neg h]
    exact not_lt.mp h

theorem integratePhase_not_mem (dt : ℝ) (ns : List Nat) :
    ∀ (heap : List NodeObj) (n : Nat), n ∉ ns →
      (integratePhase dt heap ns).getD n default = heap.getD n default := by
  induction ns with
  | nil => intro heap n _; rfl
  | cons m ms ih =>
    intro heap n hn
    have hmn : m ≠ n := by
      rintro rfl
      exact hn (List.mem_cons_self _ _)
    simp only [integratePhase]
    rw [ih _ _ (fun hmem => hn (List.mem_cons_of_mem _ hmem))]
    simp only [integrateNode]
    rw [getD_set_ne _ _ _ _ _ hmn]

theorem initFold_not_mem (w h : ℝ) (rnd : Nat → Vector) :
    ∀ (ns : List Nat) (i : Nat) (heap : List NodeObj) (n : Nat), n ∉ ns →
      (initFold w h rnd i heap ns).getD n default = heap.getD n default := by
  intro ns
  induction ns with
  | nil => intro i heap n _; rfl
  | cons m ms ih =>
    intro i heap n hn
    have hmn : m ≠ n := by
      rintro rfl
      exact hn (List.mem_cons_self _ _)
    simp only [initFold]
    rw [ih _ _ _ (fun hmem => hn (List.mem_cons_of_mem _ hmem))]
    simp only [initNode]
    rw [getD_set_ne _ _ _ _ _ hmn]

theorem initFold_pos (w h : ℝ) (rnd : Nat → Vector) :
    ∀ (ns : List Nat) (i : Nat) (heap : List NodeObj) (n : Nat),
      n ∈ ns → n < heap.length →
      ∃ j : Nat, ((initFold w h rnd i heap ns).getD n default).pos =
        Vector.mul (Vector.addS (Vector.mulS (rnd j) 0.1) ((1 - 0.1) / 2)) ⟨w, h⟩ := by
  intro ns
  induction ns with
  | nil => intro i heap n hmem _; cases hmem
  | cons m ms ih =>
    intro i heap n hmem hlen
    by_cases hms : n ∈ ms
    · exact ih (i + 1) _ n hms (by simpa [initNode, List.length_set] using hlen)
    · have hm : n = m := by
        rcases List.mem_cons.mp hmem with h' | h'
        · exact h'
        · exact absurd h' hms
      subst hm
      refine ⟨i, ?_⟩
      simp only [initFold]
      rw [initFold_not_mem w h rnd ms _ _ _ hms]
      simp only [initNode]
      rw [getD_set_self _ _ _ _ hlen]

theorem add_zero_vec (t : Vector) : Vector.add t ⟨0, 0⟩ = t := by
  cases t; simp [Vector.add]

theorem sub_zero_vec (a : Vector) : Vector.sub a ⟨0, 0⟩ = a := by
  cases a; simp [Vector.sub]

theorem sub_add_eq (a t s : Vector) :
    Vector.sub a (Vector.add t s) = Vector.sub (Vector.sub a t) s := by
  cases a; cases t; cases s
  simp only [Vector.sub, Vector.add, Vector.mk.injEq]
  constructor <;> ring

theorem sub_eq_zero_vec_iff (a b : Vector) : Vector.sub a b = ⟨0, 0⟩ ↔ a = b := by
  cases a; cases b
  simp [Vector.sub, Vector.mk.injEq, sub_eq_zero]

theorem vsum_nil : vsum [] = (⟨0, 0⟩ : Vector) := rfl

theorem vsum_cons (t : Vector) (l : List Vector) :
    vsum (t :: l) = Vector.add t (vsum l) := rfl

theorem length_setAcel (heap : List NodeObj) (n : Nat) (a : Vector) :
    (setAcel heap n a).length = heap.length := by
  simp [setAcel]

theorem getD_pos_setAcel (heap : List NodeObj) (n : Nat) (a : Vector) (i : Nat) :
    ((setAcel heap n a).getD i default).pos = (heap.getD i default).pos := by
  simp only [setAcel]
  by_cases hi : n = i
  · subst hi
    by_cases hn : n < heap.length
    · rw [getD_set_self _ _ _ _ hn]
    · rw [List.set_eq_of_length_le (le_of_not_lt hn)]
  · rw [getD_set_ne _ _ _ _ _ hi]

theorem getD_acel_setAcel_self (heap : List NodeObj) (n : Nat) (a : Vector)
    (h : n < heap.length) : ((setAcel heap n a).getD n default).acel = a := by
  simp only [setAcel]
  rw [getD_set_self _ _ _ _ h]

theorem repulseTerm_setAcel (kr : ℝ) (heap : List NodeObj) (n p m : Nat) (a : Vector) :
    repulseTerm kr (setAcel heap m a) n p = repulseTerm kr heap n p := by
  simp only [repulseTerm]
  rw [getD_pos_setAcel, getD_pos_setAcel]

theorem repulseStep_eq (kr maxF : ℝ) (heap : List NodeObj) (n p : Nat)
    (hd : Vector.mag (Vector.sub (heap.getD p default).pos
      (heap.getD n default).pos) ≠ 0) :
    repulseStep kr maxF heap n p = .ok (setAcel heap n (clampF maxF
      (Vector.sub (heap.getD n default).acel (repulseTerm kr heap n p)))) := by
  simp only [repulseStep, setAcel, clampF, repulseTerm]
  rw [if_pos hd]

theorem repulseStep_err (kr maxF : ℝ) (heap : List NodeObj) (n p : Nat)
    (h : Vector.mag (Vector.sub (heap.getD p default).pos
      (heap.getD n default).pos) = 0) :
    repulseStep kr maxF heap n p = .error .typeError := by
  simp only [repulseStep]
  rw [if_neg (fun hne => hne h)]

theorem repulseInner_bound_keep (kr maxF : ℝ) (n : Nat) :
    ∀ (P : List Nat) (heap : List NodeObj),
      n < heap.length → 0 ≤ maxF →
      (∀ p ∈ P, p ≠ n → Vector.mag (Vector.sub (heap.getD p default).pos
        (heap.getD n default).pos) ≠ 0) →
      Vector.mag (heap.getD n default).acel ≤ maxF →
      ∃ heap', repulseInner kr maxF n heap P = .ok heap' ∧
        Vector.mag ((heap'.getD n default).acel) ≤ maxF := by
  intro P
  induction P with
  | nil => intro heap _ _ _ hb; exact ⟨heap, rfl, hb⟩
  | cons p ps ih =>
    intro heap hn h0 hd hb
    by_cases hp : n = p
    · simp only [repulseInner, if_pos hp]
      exact ih heap hn h0 (fun q hq hqn => hd q (List.mem_cons_of_mem _ hq) hqn) hb
    · have hdp := hd p (List.mem_cons_self _ _) (fun h' => hp h'.symm)
      simp only [repulseInner, if_neg hp]
      rw [repulseStep_eq kr maxF heap n p hdp]
      have hn2 : n < (setAcel heap n (clampF maxF (Vector.sub
          (heap.getD n default).acel (repulseTerm kr heap n p)))).length := by
        rw [length_setAcel]; exact hn
      have hd2 : ∀ q ∈ ps, q ≠ n → Vector.mag (Vector.sub
          ((setAcel heap n (clampF maxF (Vector.sub (heap.getD n default).acel
            (repulseTerm kr heap n p)))).getD q default).pos
          ((setAcel heap n (clampF maxF (Vector.sub (heap.getD n default).acel
            (repulseTerm kr heap n p)))).getD n default).pos) ≠ 0 := by
        intro q hq hqn
        rw [getD_pos_setAcel, getD_pos_setAcel]
        exact hd q (List.mem_cons_of_mem _ hq) hqn
      have hb2 : Vector.mag ((setAcel heap n (clampF maxF (Vector.sub
          (heap.getD n default).acel (repulseTerm kr heap n p)))).getD n default).acel ≤ maxF := by
        rw [getD_acel_setAcel_self _ _ _ hn]
        exact mag_clampF_le maxF _ h0
      exact ih _ hn2 h0 hd2 hb2

theorem repulseInner_sum (kr maxF : ℝ) (n : Nat) :
    ∀ (P : List Nat) (heap : List NodeObj),
      n < heap.length →
      (∀ p ∈ P, p ≠ n → Vector.mag (Vector.sub (heap.getD p default).pos
        (heap.getD n default).pos) ≠ 0) →
      (∀ q : Nat, Vector.mag (Vector.sub (heap.getD n default).acel
        (vsum (((P.filter (fun p => p != n)).take q).map (repulseTerm kr heap n)))) ≤ maxF) →
      ∃ heap', repulseInner kr maxF n heap P = .ok heap' ∧
        (heap'.getD n default).acel = Vector.sub (heap.getD n default).acel
          (vsum ((P.filter (fun p => p != n)).map (repulseTerm kr heap n))) := by
  intro P
  induction P with
  | nil =>
    intro heap hn _ _
    exact ⟨heap, rfl, (sub_zero_vec _).symm⟩
  | cons p ps ih =>
    intro heap hn hd hnc
    by_cases hp : n = p
    · have hpn : (p != n) = false := by
        subst hp; exact bne_self_eq_false n
      simp only [repulseInner, if_pos hp]
      have hfil : (p :: ps).filter (fun p => p != n) = ps.filter (fun p => p != n) := by
        rw [List.filter_cons, hpn]
        simp
      rw [hfil] at hnc ⊢
      exact ih heap hn (fun q hq hqn => hd q (List.mem_cons_of_mem _ hq) hqn) hnc
    · have hpn : (p != n) = true := bne_iff_ne.mpr (fun h' => hp h'.symm)
      have hdp := hd p (List.mem_cons_self _ _) (fun h' => hp h'.symm)
      have hfil : (p :: ps).filter (fun p => p != n) =
          p :: ps.filter (fun p => p != n) := by
        rw [List.filter_cons, hpn]
        simp
      rw [hfil] at hnc ⊢
      have hstep1 : Vector.mag (Vector.sub (heap.getD n default).acel
          (repulseTerm kr heap n p)) ≤ maxF := by
        have := hnc 1
        simpa [vsum_cons, vsum_nil, add_zero_vec] using this
      have hclamp : clampF maxF (Vector.sub (heap.getD n default).acel
          (repulseTerm kr heap n p)) =
          Vector.sub (heap.getD n default).acel (repulseTerm kr heap n p) :=
        clampF_of_le _ _ hstep1
      simp only [repulseInner, if_neg hp]
      rw [repulseStep_eq kr maxF heap n p hdp, hclamp]
      have hn2 : n < (setAcel heap n (Vector.sub (heap.getD n default).acel
          (repulseTerm kr heap n p))).length := by
        rw [length_setAcel]; exact hn
      have hacel2 : ((setAcel heap n (Vector.sub (heap.getD n default).acel
          (repulseTerm kr heap n p))).getD n default).acel =
          Vector.sub (heap.getD n default).acel (repulseTerm kr heap n p) :=
        getD_acel_setAcel_self _ _ _ hn
      have hterm2 : ∀ q : Nat, repulseTerm kr (setAcel heap n (Vector.sub
          (heap.getD n default).acel (repulseTerm kr heap n p))) n q =
          repulseTerm kr heap n q := fun q => repulseTerm_setAcel kr heap n q n _
      have hd2 : ∀ q ∈ ps, q ≠ n → Vector.mag (Vector.sub
          ((setAcel heap n (Vector.sub (heap.getD n default).acel
            (repulseTerm kr heap n p))).getD q default).pos
          ((setAcel heap n (Vector.sub (heap.getD n default).acel
            (repulseTerm kr heap n p))).getD n default).pos) ≠ 0 := by
        intro q hq hqn
        rw [getD_pos_setAcel, getD_pos_setAcel]
        exact hd q (List.mem_cons_of_mem _ hq) hqn
      have hnc2 : ∀ q : Nat, Vector.mag (Vector.sub
          ((setAcel heap n (Vector.sub (heap.getD n default).acel
            (repulseTerm kr heap n p))).getD n default).acel
          (vsum (((ps.filter (fun r => r != n)).take q).map (repulseTerm kr
            (setAcel heap n (Vector.sub (heap.getD n default).acel
              (repulseTerm kr heap n p))) n)))) ≤ maxF := by
        intro q
        rw [hacel2]
        have hmapeq : ((ps.filter (fun r => r != n)).take q).map (repulseTerm kr
            (setAcel heap n (Vector.sub (heap.getD n default).acel
              (repulseTerm kr heap n p))) n) =
            ((ps.filter (fun r => r != n)).take q).map (repulseTerm kr heap n) :=
          List.map_congr_left (fun q _ => hterm2 q)
        rw [hmapeq, ← sub_add_eq, ← vsum_cons]
        have := hnc (q + 1)
        simpa using this
      obtain ⟨heap', hok, hacel⟩ := ih _ hn2 hd2 hnc2
      refine ⟨heap', hok, ?_⟩
      rw [hacel, hacel2]
      have hmapeq : (ps.filter (fun r => r != n)).map (repulseTerm kr
          (setAcel heap n (Vector.sub (heap.getD n default).acel
            (repulseTerm kr heap n p))) n) =
          (ps.filter (fun r => r != n)).map (repulseTerm kr heap n) :=
        List.map_congr_left (fun q _ => hterm2 q)
      rw [hmapeq, List.map_cons, vsum_cons, sub_add_eq]

/-! ## Claims -/

/-- C9: for every pair of vectors `a` and `b`, `add(a, sub(b, a)) = b`. -/
theorem C9_add_sub_roundtrip (a b : Vector) :
    Vector.add a (Vector.sub b a) = b := by
  cases a; cases b
  simp [Vector.add, Vector.sub]

/-- C7: `addNode` fails (with `invalidArgument`) iff its argument is not
a `Node` value, otherwise it registers the node under its label and
returns it, overwriting any previous entry so that `getNode` afterwards
returns the new instance; `getNode` fails (with `notFound`) iff the
label is absent from the registry, and otherwise returns the stored
node. -/
theorem C7_addNode_getNode (g : Graph) (v : JsValue) (lbl : String) (nid : Nat) :
    ((∃ e, g.addNode v = .error e) ↔ v = .nonNode) ∧
    (g.addNode .nonNode = .error .invalidArgument) ∧
    (∃ g1, g.addNode (.nodeV nid) = .ok (g1, nid) ∧
      g1.getNode (g.labelOf nid) = .ok nid) ∧
    (g.getNode lbl = .error .notFound ↔ mapGet g.registry lbl = none) ∧
    (∀ m, mapGet g.registry lbl = some m → g.getNode lbl = .ok m) := by
  refine ⟨?_, rfl, ?_, ?_, ?_⟩
  · cases v <;> simp [Graph.addNode]
  · exact ⟨_, rfl, by simp [Graph.getNode, mapGet_mapSet_self]⟩
  · cases h : mapGet g.registry lbl <;> simp [Graph.getNode, h]
  · intro m h; simp [Graph.getNode, h]

/-- C2 (code divergence): re-adding an identical edge is *not*
suppressed.  `connectNodes("A","B")` twice on the two-node fixture
appends two edges with the same endpoints and directedness, because the
source's duplicate check compares existing edges against the
just-allocated edge object by reference identity, which never matches. -/
theorem C2_duplicate_edge_inserted :
    Except.map (fun g => g.edges.map (fun e => (e.start, e.stop, e.is_directed)))
      ((gAB.connectNodes "A" "B" false).bind
        (fun g1 => g1.connectNodes "A" "B" false)) =
      .ok [(0, 1, false), (0, 1, false)] := by
  rfl

/-- C6: on success of `connectNodes`, an undirected edge records each
endpoint in the other's peer list, while a directed edge records the end
only in the start's peer list and leaves the end node's peer list
unchanged. -/
theorem C6_connectNodes_peers (g : Graph) (la lb : String) (na nb : Nat)
    (hga : g.getNode la = .ok na) (hgb : g.getNode lb = .ok nb)
    (hne : na ≠ nb)
    (hna : na < g.heap.length) (hnb : nb < g.heap.length)
    (hfresh : ∀ e ∈ g.edges, e.eid ≠ g.nextEdgeId) :
    (∃ g', g.connectNodes la lb false = .ok g' ∧
      nb ∈ (g'.heap.getD na default).peers ∧
      na ∈ (g'.heap.getD nb default).peers) ∧
    (∃ g', g.connectNodes la lb true = .ok g' ∧
      nb ∈ (g'.heap.getD na default).peers ∧
      (g'.heap.getD nb default).peers = (g.heap.getD nb default).peers) := by
  have hfind : g.edges.find? (fun e => e.eid == g.nextEdgeId) = none := by
    rw [List.find?_eq_none]
    intro e he
    simpa using hfresh e he
  have hconnF : g.connectNodes la lb false =
      .ok ((({g with nextEdgeId := g.nextEdgeId + 1, edges := g.edges ++ [⟨g.nextEdgeId, na, nb, false⟩]} : Graph).addPeer na nb).addPeer nb na) := by
    simp [Graph.connectNodes, hga, hgb, hfind]
  have hconnT : g.connectNodes la lb true =
      .ok (({g with nextEdgeId := g.nextEdgeId + 1, edges := g.edges ++ [⟨g.nextEdgeId, na, nb, true⟩]} : Graph).addPeer na nb) := by
    simp [Graph.connectNodes, hga, hgb, hfind]
  constructor
  · refine ⟨_, hconnF, ?_, ?_⟩
    · rw [addPeer_getD_ne _ _ _ _ (Ne.symm hne), addPeer_peers_self]
      · simp
      · exact hna
    · rw [addPeer_peers_self]
      · simp
      · rw [addPeer_heap_length]; exact hnb
  · refine ⟨_, hconnT, ?_, ?_⟩
    · rw [addPeer_peers_self]
      · simp
      · exact hna
    · rw [addPeer_getD_ne _ _ _ _ hne]

/-- C6 witness: on the two-node fixture, connecting `A` and `B` puts
`B` in `A`'s peers and, undirected, `A` in `B`'s peers; directed, `B`'s
peers stay empty. -/
theorem C6_connectNodes_peers_witness :
    gAB.getNode "A" = .ok 0 ∧ gAB.getNode "B" = .ok 1 ∧ (0 : Nat) ≠ 1 ∧
    0 < gAB.heap.length ∧ 1 < gAB.heap.length ∧
    (∀ e ∈ gAB.edges, e.eid ≠ gAB.nextEdgeId) ∧
    ((∃ g', gAB.connectNodes "A" "B" false = .ok g' ∧
      1 ∈ (g'.heap.getD 0 default).peers ∧
      0 ∈ (g'.heap.getD 1 default).peers) ∧
    (∃ g', gAB.connectNodes "A" "B" true = .ok g' ∧
      1 ∈ (g'.heap.getD 0 default).peers ∧
      (g'.heap.getD 1 default).peers = (gAB.heap.getD 1 default).peers)) := by
  refine ⟨rfl, rfl, by decide, ?_, ?_, ?_, ?_⟩
  · show 0 < 2; decide
  · show 1 < 2; decide
  · intro e he
    simp [gAB, Graph.new] at he
  · exact C6_connectNodes_peers gAB "A" "B" 0 1 rfl rfl (by decide)
      (by show 0 < 2; decide) (by show 1 < 2; decide)
      (fun e he => by simp [gAB, Graph.new] at he)

/-- C5: in the integration phase, a node processed exactly once has its
position advanced by `vel * dt` (using the pre-update velocity), then its
velocity advanced by `acel * dt`, then its velocity damped by the factor
`0.95` — for every `dt`, including `dt = 0` (the damping is
unconditional).  Label, peers and acceleration are untouched. -/
theorem C5_integration_order (dt : ℝ) (vals : List Nat) (heap : List NodeObj) (n : Nat)
    (hn : n < heap.length) (hcount : vals.count n = 1) :
    (integratePhase dt heap vals).getD n default =
      { heap.getD n default with
        pos := Vector.add (heap.getD n default).pos
          (Vector.mulS (heap.getD n default).vel dt)
        vel := Vector.mulS (Vector.add (heap.getD n default).vel
          (Vector.mulS (heap.getD n default).acel dt)) 0.95 } := by
  induction vals generalizing heap with
  | nil => simp at hcount
  | cons m ms ih =>
    by_cases hm : m = n
    · replace hm := hm.symm
      subst hm
      rw [List.count_cons_self] at hcount
      have hms : n ∉ ms := List.count_eq_zero.mp (by omega)
      simp only [integratePhase]
      rw [integratePhase_not_mem dt ms _ n hms]
      simp only [integrateNode]
      rw [getD_set_self _ _ _ _ hn]
    · have hcount' : ms.count n = 1 := by
        rwa [List.count_cons_of_ne (fun h' => hm h'.symm)] at hcount
      simp only [integratePhase]
      have hkeep : (integrateNode dt heap m).getD n default = heap.getD n default := by
        simp only [integrateNode]
        rw [getD_set_ne _ _ _ _ _ hm]
      have hlen : n < (integrateNode dt heap m).length := by
        simpa [integrateNode, List.length_set] using hn
      rw [ih _ hlen hcount', hkeep]

/-- C5 witness: integrating the three-node fixture with `dt = 0` leaves
node 0's position unchanged and damps its velocity by `0.95`. -/
theorem C5_integration_order_witness :
    0 < gLine.heap.length ∧ gLine.values.count 0 = 1 ∧
    (integratePhase 0 gLine.heap gLine.values).getD 0 default =
      { gLine.heap.getD 0 default with
        pos := Vector.add (gLine.heap.getD 0 default).pos
          (Vector.mulS (gLine.heap.getD 0 default).vel 0)
        vel := Vector.mulS (Vector.add (gLine.heap.getD 0 default).vel
          (Vector.mulS (gLine.heap.getD 0 default).acel 0)) 0.95 } :=
  ⟨by show 0 < 3; decide, by decide,
    C5_integration_order 0 gLine.values gLine.heap 0 (by show 0 < 3; decide) (by decide)⟩

/-- C8: after `init(width, height)`, every registered node's position is
a unit-square sample transformed by `pos * 0.1 + (1 - 0.1)/2` and scaled
elementwise by `(width, height)`; consequently it lies in the centered
10%-scale sub-square `[0.45w, 0.55w) × [0.45h, 0.55h)`. -/
theorem C8_init_positions (g : Graph) (w h : ℝ) (rnd : Nat → Vector) (nid : Nat)
    (hw : 0 < w) (hh : 0 < h)
    (hr : ∀ i, 0 ≤ (rnd i).x ∧ (rnd i).x < 1 ∧ 0 ≤ (rnd i).y ∧ (rnd i).y < 1)
    (hmem : nid ∈ g.values) (hlen : nid < g.heap.length) :
    (∃ r : Vector, (0 ≤ r.x ∧ r.x < 1 ∧ 0 ≤ r.y ∧ r.y < 1) ∧
      ((g.init w h rnd).heap.getD nid default).pos =
        Vector.mul (Vector.addS (Vector.mulS r 0.1) ((1 - 0.1) / 2)) ⟨w, h⟩) ∧
    0.45 * w ≤ (((g.init w h rnd).heap.getD nid default).pos).x ∧
    (((g.init w h rnd).heap.getD nid default).pos).x < 0.55 * w ∧
    0.45 * h ≤ (((g.init w h rnd).heap.getD nid default).pos).y ∧
    (((g.init w h rnd).heap.getD nid default).pos).y < 0.55 * h := by
  obtain ⟨j, hj⟩ := initFold_pos w h rnd g.values 0 g.heap nid hmem hlen
  have hpos : ((g.init w h rnd).heap.getD nid default).pos =
      Vector.mul (Vector.addS (Vector.mulS (rnd j) 0.1) ((1 - 0.1) / 2)) ⟨w, h⟩ := by
    simp only [Graph.init]
    exact hj
  obtain ⟨h1, h2, h3, h4⟩ := hr j
  have hx : (((g.init w h rnd).heap.getD nid default).pos).x =
      ((rnd j).x * 0.1 + (1 - 0.1) / 2) * w := by
    rw [hpos]; simp [Vector.mul, Vector.addS, Vector.mulS]
  have hy : (((g.init w h rnd).heap.getD nid default).pos).y =
      ((rnd j).y * 0.1 + (1 - 0.1) / 2) * h := by
    rw [hpos]; simp [Vector.mul, Vector.addS, Vector.mulS]
  refine ⟨⟨rnd j, ⟨h1, h2, h3, h4⟩, hpos⟩, ?_, ?_, ?_, ?_⟩
  · rw [hx]; nlinarith [mul_nonneg h1 hw.le]
  · rw [hx]; nlinarith [mul_pos (show (0:ℝ) < 1 - (rnd j).x by linarith) hw]
  · rw [hy]; nlinarith [mul_nonneg h3 hh.le]
  · rw [hy]; nlinarith [mul_pos (show (0:ℝ) < 1 - (rnd j).y by linarith) hh]

/-- C8 witness: initializing the two-node fixture on an `800 × 600`
surface with the constant sample `(1/2, 1/2)` places node 0 inside the
centered 10%-scale sub-square. -/
theorem C8_init_positions_witness :
    (0:ℝ) < 800 ∧ (0:ℝ) < 600 ∧
    (∀ i : Nat, 0 ≤ ((fun _ : Nat => (⟨1/2, 1/2⟩ : Vector)) i).x ∧
      ((fun _ : Nat => (⟨1/2, 1/2⟩ : Vector)) i).x < 1 ∧
      0 ≤ ((fun _ : Nat => (⟨1/2, 1/2⟩ : Vector)) i).y ∧
      ((fun _ : Nat => (⟨1/2, 1/2⟩ : Vector)) i).y < 1) ∧
    0 ∈ gAB.values ∧ 0 < gAB.heap.length ∧
    ((∃ r : Vector, (0 ≤ r.x ∧ r.x < 1 ∧ 0 ≤ r.y ∧ r.y < 1) ∧
      ((gAB.init 800 600 (fun _ => ⟨1/2, 1/2⟩)).heap.getD 0 default).pos =
        Vector.mul (Vector.addS (Vector.mulS r 0.1) ((1 - 0.1) / 2)) ⟨800, 600⟩) ∧
    0.45 * 800 ≤ (((gAB.init 800 600 (fun _ => ⟨1/2, 1/2⟩)).heap.getD 0 default).pos).x ∧
    (((gAB.init 800 600 (fun _ => ⟨1/2, 1/2⟩)).heap.getD 0 default).pos).x < 0.55 * 800 ∧
    0.45 * 600 ≤ (((gAB.init 800 600 (fun _ => ⟨1/2, 1/2⟩)).heap.getD 0 default).pos).y ∧
    (((gAB.init 800 600 (fun _ => ⟨1/2, 1/2⟩)).heap.getD 0 default).pos).y < 0.55 * 600) :=
  ⟨by norm_num, by norm_num, fun i => by norm_num,
    by show 0 ∈ [0, 1]; decide, by show 0 < 2; decide,
    C8_init_positions gAB 800 600 (fun _ => ⟨1/2, 1/2⟩) 0 (by norm_num) (by norm_num)
      (fun i => by norm_num) (by show 0 ∈ [0, 1]; decide) (by show 0 < 2; decide)⟩

/-- C4: for an edge between distinct valid endpoints, when the endpoint
distance exceeds the spring length the edge phase accumulates a force of
magnitude `springConstant * ln(dist - (springLength - 1))` along the unit
direction between the endpoints into both endpoint accelerations with
opposite signs; at or below the spring length the edge contributes
nothing at all. -/
theorem C4_spring_force (k L : ℝ) (heap : List NodeObj) (e : EdgeObj)
    (dv F : Vector) (dist : ℝ)
    (hdv : dv = Vector.sub (heap.getD e.start default).pos (heap.getD e.stop default).pos)
    (hdist : dist = Vector.mag dv)
    (hF : F = Vector.mulS (Vector.norm dv) (k * Real.log (dist - (L - 1))))
    (hs : e.start < heap.length) (ht : e.stop < heap.length)
    (hne : e.start ≠ e.stop) (hL : 0 ≤ L) (hk : 0 < k) :
    (dist > L →
      Vector.mag F = k * Real.log (dist - (L - 1)) ∧
      ((applyEdge k L heap e).getD e.start default).acel =
        Vector.sub (heap.getD e.start default).acel F ∧
      ((applyEdge k L heap e).getD e.stop default).acel =
        Vector.add (heap.getD e.stop default).acel F) ∧
    (dist ≤ L → applyEdge k L heap e = heap) := by
  subst hdv
  subst hdist
  subst hF
  constructor
  · intro hgt
    have hdist0 : Vector.mag (Vector.sub (heap.getD e.start default).pos
        (heap.getD e.stop default).pos) ≠ 0 := (lt_of_le_of_lt hL hgt).ne'
    refine ⟨?_, ?_, ?_⟩
    · rw [mag_mulS, mag_norm _ hdist0, mul_one,
        abs_of_nonneg (mul_nonneg hk.le (Real.log_nonneg (by linarith)))]
    · simp only [applyEdge]
      rw [if_pos hgt, getD_set_ne _ _ _ _ _ (Ne.symm hne), getD_set_self _ _ _ _ hs]
    · simp only [applyEdge]
      rw [if_pos hgt, getD_set_self _ _ _ _ (by simpa using ht),
        getD_set_ne _ _ _ _ _ hne]
  · intro hle
    simp only [applyEdge]
    rw [if_neg (not_lt.mpr hle)]

/-- C4 witness: the edge between nodes 0 and 1 of the three-node fixture
(distance 100, spring length 30) gets a spring force of magnitude
`100 * ln(71)`, subtracted from node 0's acceleration and added to node
1's. -/
theorem C4_spring_force_witness :
    ((⟨-100, 0⟩ : Vector) = Vector.sub
      (gLine.heap.getD (⟨0, 0, 1, false⟩ : EdgeObj).start default).pos
      (gLine.heap.getD (⟨0, 0, 1, false⟩ : EdgeObj).stop default).pos) ∧
    ((100 : ℝ) = Vector.mag ⟨-100, 0⟩) ∧
    (0 : Nat) < gLine.heap.length ∧ (1 : Nat) < gLine.heap.length ∧
    (0 : Nat) ≠ 1 ∧ (0 : ℝ) ≤ 30 ∧ (0 : ℝ) < 100 ∧
    (((100 : ℝ) > 30 →
      Vector.mag (Vector.mulS (Vector.norm ⟨-100, 0⟩) (100 * Real.log (100 - (30 - 1)))) =
        100 * Real.log (100 - (30 - 1)) ∧
      ((applyEdge 100 30 gLine.heap ⟨0, 0, 1, false⟩).getD
          (⟨0, 0, 1, false⟩ : EdgeObj).start default).acel =
        Vector.sub (gLine.heap.getD (⟨0, 0, 1, false⟩ : EdgeObj).start default).acel
          (Vector.mulS (Vector.norm ⟨-100, 0⟩) (100 * Real.log (100 - (30 - 1)))) ∧
      ((applyEdge 100 30 gLine.heap ⟨0, 0, 1, false⟩).getD
          (⟨0, 0, 1, false⟩ : EdgeObj).stop default).acel =
        Vector.add (gLine.heap.getD (⟨0, 0, 1, false⟩ : EdgeObj).stop default).acel
          (Vector.mulS (Vector.norm ⟨-100, 0⟩) (100 * Real.log (100 - (30 - 1))))) ∧
    ((100 : ℝ) ≤ 30 → applyEdge 100 30 gLine.heap ⟨0, 0, 1, false⟩ = gLine.heap)) := by
  have hdv : (⟨-100, 0⟩ : Vector) = Vector.sub
      (gLine.heap.getD (⟨0, 0, 1, false⟩ : EdgeObj).start default).pos
      (gLine.heap.getD (⟨0, 0, 1, false⟩ : EdgeObj).stop default).pos := by
    show (⟨-100, 0⟩ : Vector) = Vector.sub ⟨0, 0⟩ ⟨100, 0⟩
    rw [Vector.sub]
    norm_num
  have hdist : (100 : ℝ) = Vector.mag ⟨-100, 0⟩ := by
    rw [mag_xAxis]
    norm_num
  exact ⟨hdv, hdist, by show 0 < 3; decide, by show 1 < 3; decide, by decide,
    by norm_num, by norm_num,
    C4_spring_force 100 30 gLine.heap ⟨0, 0, 1, false⟩ ⟨-100, 0⟩
      (Vector.mulS (Vector.norm ⟨-100, 0⟩) (100 * Real.log (100 - (30 - 1)))) 100
      hdv hdist rfl (by show 0 < 3; decide) (by show 1 < 3; decide) (by decide)
      (by norm_num) (by norm_num)⟩

/-! Concrete evaluations on the three-node fixture, used below. -/

theorem gLine_filter : gLine.values.filter (fun p => p != 0) = [1, 2] := rfl

theorem gLine_sub1 : Vector.sub (gLine.heap.getD 1 default).pos
    (gLine.heap.getD 0 default).pos = ⟨100, 0⟩ := by
  show Vector.sub ⟨100, 0⟩ ⟨0, 0⟩ = ⟨100, 0⟩
  rw [Vector.sub]
  norm_num

theorem gLine_sub2 : Vector.sub (gLine.heap.getD 2 default).pos
    (gLine.heap.getD 0 default).pos = ⟨300, 0⟩ := by
  show Vector.sub ⟨300, 0⟩ ⟨0, 0⟩ = ⟨300, 0⟩
  rw [Vector.sub]
  norm_num

theorem gLine_term1 : repulseTerm 100000 gLine.heap 0 1 = ⟨10, 0⟩ := by
  simp only [repulseTerm, Vector.norm]
  rw [gLine_sub1, mag_xAxis, Vector.divS, Vector.mulS]
  norm_num

theorem gLine_term2 : repulseTerm 100000 gLine.heap 0 2 = ⟨10/9, 0⟩ := by
  simp only [repulseTerm, Vector.norm]
  rw [gLine_sub2, mag_xAxis, Vector.divS, Vector.mulS]
  norm_num

theorem gLine_dists : ∀ p ∈ gLine.values, p ≠ 0 →
    Vector.mag (Vector.sub (gLine.heap.getD p default).pos
      (gLine.heap.getD 0 default).pos) ≠ 0 := by
  intro p hp hpn
  have hv : gLine.values = [0, 1, 2] := rfl
  rw [hv] at hp
  fin_cases hp
  · exact absurd rfl hpn
  · rw [gLine_sub1, mag_xAxis]
    norm_num
  · rw [gLine_sub2, mag_xAxis]
    norm_num

theorem gLine_noclamp : ∀ q : Nat, Vector.mag (Vector.sub (gLine.heap.getD 0 default).acel
    (vsum (((gLine.values.filter (fun p => p != 0)).take q).map
      (repulseTerm 100000 gLine.heap 0)))) ≤ 10000 := by
  intro q
  rw [gLine_filter]
  rcases q with _ | _ | q
  · simp only [List.take_zero, List.map_nil, vsum_nil, sub_zero_vec]
    rw [show (gLine.heap.getD 0 default).acel = (⟨0, 0⟩ : Vector) from rfl, mag_xAxis]
    norm_num
  · rw [show (([1, 2] : List Nat).take 1) = [1] from rfl]
    simp only [List.map_cons, List.map_nil]
    rw [gLine_term1]
    simp only [vsum_cons, vsum_nil, add_zero_vec]
    rw [show (gLine.heap.getD 0 default).acel = (⟨0, 0⟩ : Vector) from rfl]
    rw [show Vector.sub (⟨0, 0⟩ : Vector) ⟨10, 0⟩ = ⟨-10, 0⟩ from by rw [Vector.sub]; norm_num]
    rw [mag_xAxis]
    norm_num
  · rw [List.take_succ_cons, List.take_succ_cons, List.take_nil]
    simp only [List.map_cons, List.map_nil]
    rw [gLine_term1, gLine_term2]
    simp only [vsum_cons, vsum_nil, add_zero_vec]
    rw [show (gLine.heap.getD 0 default).acel = (⟨0, 0⟩ : Vector) from rfl]
    rw [show Vector.add (⟨10, 0⟩ : Vector) ⟨10/9, 0⟩ = ⟨100/9, 0⟩ from by rw [Vector.add]; norm_num]
    rw [show Vector.sub (⟨0, 0⟩ : Vector) ⟨100/9, 0⟩ = ⟨-(100/9), 0⟩ from by rw [Vector.sub]; norm_num]
    rw [mag_xAxis, abs_neg, abs_of_nonneg (by norm_num : (0:ℝ) ≤ 100 / 9)]
    norm_num

/-- C10: for a subject node with at least one distinct peer and all
pairwise positions distinct, the inner repulsion loop succeeds and the
magnitude of the subject's entire accumulated acceleration (whatever its
initial value, e.g. carried-over spring forces) is at most
`max_repulsive_force` when the loop ends, before the centering force is
added. -/
theorem C10_clamp_bound (kr maxF : ℝ) (n : Nat) :
    ∀ (P : List Nat) (heap : List NodeObj),
      n < heap.length → 0 ≤ maxF →
      (∃ p ∈ P, p ≠ n) →
      (∀ p ∈ P, p ≠ n → (heap.getD p default).pos ≠ (heap.getD n default).pos) →
      ∃ heap', repulseInner kr maxF n heap P = .ok heap' ∧
        Vector.mag ((heap'.getD n default).acel) ≤ maxF := by
  intro P
  induction P with
  | nil =>
    intro heap _ _ hex _
    obtain ⟨p, hp, _⟩ := hex
    cases hp
  | cons p ps ih =>
    intro heap hn h0 hex hd
    have hd' : ∀ q ∈ p :: ps, q ≠ n → Vector.mag (Vector.sub
        (heap.getD q default).pos (heap.getD n default).pos) ≠ 0 := by
      intro q hq hqn hz
      exact hd q hq hqn ((sub_eq_zero_vec_iff _ _).mp ((mag_eq_zero_iff _).mp hz))
    by_cases hp : n = p
    · simp only [repulseInner, if_pos hp]
      obtain ⟨q, hq, hqn⟩ := hex
      have hq' : q ∈ ps := by
        rcases List.mem_cons.mp hq with h' | h'
        · exact absurd (h'.trans hp.symm) hqn
        · exact h'
      exact ih heap hn h0 ⟨q, hq', hqn⟩
        (fun r hr hrn => hd r (List.mem_cons_of_mem _ hr) hrn)
    · have hdp := hd' p (List.mem_cons_self _ _) (fun h' => hp h'.symm)
      simp only [repulseInner, if_neg hp]
      rw [repulseStep_eq kr maxF heap n p hdp]
      have hn2 : n < (setAcel heap n (clampF maxF (Vector.sub
          (heap.getD n default).acel (repulseTerm kr heap n p)))).length := by
        rw [length_setAcel]; exact hn
      have hd2 : ∀ q ∈ ps, q ≠ n → Vector.mag (Vector.sub
          ((setAcel heap n (clampF maxF (Vector.sub (heap.getD n default).acel
            (repulseTerm kr heap n p)))).getD q default).pos
          ((setAcel heap n (clampF maxF (Vector.sub (heap.getD n default).acel
            (repulseTerm kr heap n p)))).getD n default).pos) ≠ 0 := by
        intro q hq hqn
        rw [getD_pos_setAcel, getD_pos_setAcel]
        exact hd' q (List.mem_cons_of_mem _ hq) hqn
      have hb2 : Vector.mag ((setAcel heap n (clampF maxF (Vector.sub
          (heap.getD n default).acel (repulseTerm kr heap n p)))).getD n default).acel ≤ maxF := by
        rw [getD_acel_setAcel_self _ _ _ hn]
        exact mag_clampF_le maxF _ h0
      exact repulseInner_bound_keep kr maxF n ps _ hn2 h0 hd2 hb2

/-- C10 witness: on the three-node fixture (distinct positions, subject
node 0), the inner repulsion loop succeeds with final acceleration
magnitude at most `1e4`. -/
theorem C10_clamp_bound_witness :
    0 < gLine.heap.length ∧ (0 : ℝ) ≤ 10000 ∧ (∃ p ∈ gLine.values, p ≠ 0) ∧
    (∀ p ∈ gLine.values, p ≠ 0 →
      (gLine.heap.getD p default).pos ≠ (gLine.heap.getD 0 default).pos) ∧
    (∃ heap', repulseInner 100000 10000 0 gLine.heap gLine.values = .ok heap' ∧
      Vector.mag ((heap'.getD 0 default).acel) ≤ 10000) := by
  have hd : ∀ p ∈ gLine.values, p ≠ 0 →
      (gLine.heap.getD p default).pos ≠ (gLine.heap.getD 0 default).pos := by
    intro p hp hpn
    have hv : gLine.values = [0, 1, 2] := rfl
    rw [hv] at hp
    fin_cases hp
    · exact absurd rfl hpn
    · show (⟨100, 0⟩ : Vector) ≠ ⟨0, 0⟩
      norm_num [Vector.mk.injEq]
    · show (⟨300, 0⟩ : Vector) ≠ ⟨0, 0⟩
      norm_num [Vector.mk.injEq]
  exact ⟨by show 0 < 3; decide, by norm_num, ⟨1, by decide, by decide⟩, hd,
    C10_clamp_bound 100000 10000 0 gLine.values gLine.heap (by show 0 < 3; decide)
      (by norm_num) ⟨1, by decide, by decide⟩ hd⟩

/-- C1 counterexample: in the three-node fixture (nodes at x = 0, 100,
300, subject node 0), the acceleration persisting at the end of the inner
pairwise loop (before the centering force) is `(-100/9, 0)` — the *sum*
of both pairwise repulsive contributions `(-10, 0)` and `(-10/9, 0)` —
and not `(-10/9, 0)`, the last-computed pairwise force (the one against
the final node in map-iteration order), as the claim asserts. -/
theorem C1_overwrite_refuted :
    (∃ heap', repulseInner gLine.repulsive_constant gLine.max_repulsive_force 0
        gLine.heap gLine.values = .ok heap' ∧
      (heap'.getD 0 default).acel = ⟨-(100/9), 0⟩) ∧
    (⟨-(100/9), 0⟩ : Vector) ≠ ⟨-(10/9), 0⟩ := by
  obtain ⟨heap', hok, hacel⟩ := repulseInner_sum 100000 10000 0 gLine.values gLine.heap
    (by show 0 < 3; decide) gLine_dists gLine_noclamp
  have hkr : gLine.repulsive_constant = 100000 := by norm_num [gLine, Graph.new]
  have hmax : gLine.max_repulsive_force = 10000 := by norm_num [gLine, Graph.new]
  rw [hkr, hmax]
  constructor
  · refine ⟨heap', hok, ?_⟩
    rw [hacel, gLine_filter]
    simp only [List.map_cons, List.map_nil]
    rw [gLine_term1, gLine_term2]
    simp only [vsum_cons, vsum_nil, add_zero_vec]
    rw [show (gLine.heap.getD 0 default).acel = (⟨0, 0⟩ : Vector) from rfl]
    rw [show Vector.add (⟨10, 0⟩ : Vector) ⟨10/9, 0⟩ = ⟨100/9, 0⟩ from by rw [Vector.add]; norm_num]
    rw [Vector.sub]
    norm_num
  · norm_num [Vector.mk.injEq]

/-- C1 (amended): the inner pairwise loop *accumulates*: each iteration
subtracts the pairwise repulsive term from the subject's current
accumulated acceleration and then applies the clamp, so — whenever no
clamp fires along the way and no pair is coincident — the acceleration
persisting before the centering force is the initial (edge-phase)
acceleration minus the **sum** of the repulsive terms over all distinct
peers in map-iteration order, not just the last term. -/
theorem C1_repulsion_accumulates (kr maxF : ℝ) (n : Nat) (P : List Nat)
    (heap : List NodeObj) (hn : n < heap.length)
    (hd : ∀ p ∈ P, p ≠ n → Vector.mag (Vector.sub (heap.getD p default).pos
      (heap.getD n default).pos) ≠ 0)
    (hnc : ∀ q : Nat, Vector.mag (Vector.sub (heap.getD n default).acel
      (vsum (((P.filter (fun p => p != n)).take q).map (repulseTerm kr heap n)))) ≤ maxF) :
    ∃ heap', repulseInner kr maxF n heap P = .ok heap' ∧
      (heap'.getD n default).acel = Vector.sub (heap.getD n default).acel
        (vsum ((P.filter (fun p => p != n)).map (repulseTerm kr heap n))) :=
  repulseInner_sum kr maxF n P heap hn hd hnc

/-- C1 witness: on the three-node fixture the accumulated acceleration of
node 0 equals the initial acceleration minus the sum of both pairwise
repulsive terms. -/
theorem C1_repulsion_accumulates_witness :
    0 < gLine.heap.length ∧
    (∀ p ∈ gLine.values, p ≠ 0 → Vector.mag (Vector.sub (gLine.heap.getD p default).pos
      (gLine.heap.getD 0 default).pos) ≠ 0) ∧
    (∀ q : Nat, Vector.mag (Vector.sub (gLine.heap.getD 0 default).acel
      (vsum (((gLine.values.filter (fun p => p != 0)).take q).map
        (repulseTerm 100000 gLine.heap 0)))) ≤ 10000) ∧
    (∃ heap', repulseInner 100000 10000 0 gLine.heap gLine.values = .ok heap' ∧
      (heap'.getD 0 default).acel = Vector.sub (gLine.heap.getD 0 default).acel
        (vsum ((gLine.values.filter (fun p => p != 0)).map
          (repulseTerm 100000 gLine.heap 0)))) :=
  ⟨by show 0 < 3; decide, gLine_dists, gLine_noclamp,
    C1_repulsion_accumulates 100000 10000 0 gLine.values gLine.heap
      (by show 0 < 3; decide) gLine_dists gLine_noclamp⟩

/-- C3 (code divergence): with two distinct nodes at identical positions
(two freshly added nodes both sit at the origin), the simulation step
*does* raise an error: in the `dist == 0` branch the source normalises
the still-undefined local `force`, and reading `.x` of `undefined`
throws a `TypeError`. -/
theorem C3_coincident_nodes_error :
    gAB.simulate 800 600 0.016 = .error .typeError := by
  have h0 : Vector.mag (Vector.sub (gAB.heap.getD 1 default).pos
      (gAB.heap.getD 0 default).pos) = 0 := by
    have hsub : Vector.sub (gAB.heap.getD 1 default).pos (gAB.heap.getD 0 default).pos = ⟨0, 0⟩ := by
      show Vector.sub ⟨0, 0⟩ ⟨0, 0⟩ = ⟨0, 0⟩
      rw [Vector.sub]
      norm_num
    rw [hsub, mag_xAxis]
    norm_num
  have hstep := repulseStep_err gAB.repulsive_constant gAB.max_repulsive_force
    gAB.heap 0 1 h0
  have hinner : repulseInner gAB.repulsive_constant gAB.max_repulsive_force 0
      gAB.heap gAB.values = .error .typeError := by
    show repulseInner gAB.repulsive_constant gAB.max_repulsive_force 0 gAB.heap [0, 1] = _
    simp [repulseInner, hstep]
  have hphase : repulsePhase gAB.repulsive_constant gAB.max_repulsive_force 800 600
      gAB.values gAB.heap gAB.values = .error .typeError := by
    show repulsePhase gAB.repulsive_constant gAB.max_repulsive_force 800 600
      gAB.values gAB.heap [0, 1] = _
    simp only [repulsePhase]
    rw [hinner]
  have hpre : edgePhase gAB.spring_constant gAB.spring_length
      (resetPhase gAB.heap gAB.values) gAB.edges = gAB.heap := rfl
  simp only [Graph.simulate]
  rw [hpre, hphase]

end GraphJs
